import Mathlib

/-!
Verification of the depthwise_conv2d CUDA schedule construction
(`topi/python/topi/cuda/depthwise_conv2d_map.py`).

The source is a graph-to-schedule transform: it walks a computation graph
from its declared output, inlines elementwise / scale-shift epilogue nodes,
and, at the depthwise-convolution node, builds the memory staging and
thread-hierarchy binding of the output.  We embed the graph interface
(operation nodes with a tag, an output shape, and producer tensors) and the
schedule-builder primitives the source calls, and translate the source
function line by line.  The schedule is modelled as a record of the
bookkeeping each primitive performs: inline marks, cache stages with their
scopes, recorded reorders, thread-axis bindings, and compute-at anchors.
-/

set_option maxRecDepth 100000

namespace TVMDepthwise

/-- A computation-graph node, as the source reads it through the tvm
operation interface: `nid` models Python object identity, `tag` is the
operator category tag (`"ewise"`, `"scale_shift"`, `"depthwise_conv2d"`,
or anything else), `shape` the output tensor shape (`get_const_tuple`),
and `inputs` the ops producing `input_tensors` (each input tensor is
identified with its producing op; all ops here are single-output). -/
inductive Node : Type where
  | mk (nid : Nat) (tag : String) (shape : List Nat) (inputs : List Node)

/-- Object identity of a node. -/
def Node.nid : Node → Nat
  | .mk i _ _ _ => i

/-- The operator category tag of a node. -/
def Node.tag : Node → String
  | .mk _ t _ _ => t

/-- The output shape of a node. -/
def Node.shape : Node → List Nat
  | .mk _ _ s _ => s

/-- The producers (input tensors) of a node. -/
def Node.inputs : Node → List Node
  | .mk _ _ _ i => i

mutual

/-- Decidable equality on nodes (structural, including `nid`). -/
def Node.deq : (a b : Node) → Decidable (a = b)
  | .mk i1 t1 s1 l1, .mk i2 t2 s2 l2 =>
    match decEq i1 i2 with
    | .isFalse h => .isFalse (by intro he; cases he; exact h rfl)
    | .isTrue h1 =>
      match decEq t1 t2 with
      | .isFalse h => .isFalse (by intro he; cases he; exact h rfl)
      | .isTrue h2 =>
        match decEq s1 s2 with
        | .isFalse h => .isFalse (by intro he; cases he; exact h rfl)
        | .isTrue h3 =>
          match NodeList.deq l1 l2 with
          | .isFalse h => .isFalse (by intro he; cases he; exact h rfl)
          | .isTrue h4 => .isTrue (by rw [h1, h2, h3, h4])

/-- Decidable equality on lists of nodes. -/
def NodeList.deq : (a b : List Node) → Decidable (a = b)
  | [], [] => .isTrue rfl
  | [], _ :: _ => .isFalse (by intro h; cases h)
  | _ :: _, [] => .isFalse (by intro h; cases h)
  | a :: as, b :: bs =>
    match Node.deq a b with
    | .isFalse h => .isFalse (by intro he; cases he; exact h rfl)
    | .isTrue h1 =>
      match NodeList.deq as bs with
      | .isFalse h => .isFalse (by intro he; cases he; exact h rfl)
      | .isTrue h2 => .isTrue (by rw [h1, h2])

end

instance : DecidableEq Node := Node.deq

/-- A stage of the schedule: either the stage of an original graph node,
or a cache stage created by `cache_read` / `cache_write` (identified, as
in the source, by what it caches and at which scope). -/
inductive StageRef : Type where
  | node (n : Node)
  | cacheRead (src : StageRef) (scope : String)
  | cacheWrite (orig : Node) (scope : String)
deriving DecidableEq

/-- The output shape backing a stage (cache stages have the shape of what
they cache), used for the bounds of `op.axis` accesses. -/
def StageRef.shapeOf : StageRef → List Nat
  | .node n => n.shape
  | .cacheRead src _ => src.shapeOf
  | .cacheWrite n _ => n.shape

/-- An iteration axis of a stage, as produced by axis accesses, splits and
fuses: `base st i` is `st.op.axis[i]`; `outerF f a` / `innerF f a` are the
outer and inner results of `split(a, factor=f)`; `outerN n a` / `innerN n a`
of `split(a, nparts=n)`; `fused a b` of `fuse(a, b)`. -/
inductive Axis : Type where
  | base (st : StageRef) (i : Nat)
  | outerF (f : Nat) (a : Axis)
  | innerF (f : Nat) (a : Axis)
  | outerN (n : Nat) (a : Axis)
  | innerN (n : Nat) (a : Axis)
  | fused (a b : Axis)
deriving DecidableEq

/-- A hardware thread axis as created by `tvm.thread_axis`: optional
extent, thread tag, and name (the name defaults to the tag). -/
structure ThreadAxis : Type where
  textent : Option Nat
  ttag : String
  tname : String
deriving DecidableEq

/-- The schedule under construction: the bookkeeping of every builder
primitive the source invokes.  `outputs` is the declared output list of
`create_schedule`; `inlined` the stages marked `compute_inline`; `scopes`
the `set_scope` calls; `cacheReads` the stages created by `cache_read`
with their reader lists; `cacheWrites` the stages created by
`cache_write`; `reorders` the recorded `reorder` calls; `binds` the
`bind` calls; `computeAts` the `compute_at` anchors (stage, anchor stage,
anchor axis). -/
structure Sched : Type where
  outputs : List Node
  inlined : List StageRef
  scopes : List (StageRef × String)
  cacheReads : List (StageRef × List StageRef)
  cacheWrites : List StageRef
  reorders : List (StageRef × List Axis)
  binds : List (StageRef × Axis × ThreadAxis)
  computeAts : List (StageRef × StageRef × Axis)
deriving DecidableEq

/-- Modelled from the spec: `tvm.create_schedule(op)` (not under `src/`)
creates a fresh schedule for the single declared output `op`, with no
decisions recorded yet. -/
def create_schedule (op : Node) : Sched :=
  { outputs := [op], inlined := [], scopes := [], cacheReads := [],
    cacheWrites := [], reorders := [], binds := [], computeAts := [] }

/-- Modelled from the spec: `s[st].compute_inline()` (not under `src/`)
marks the stage for inline placement (recomputed at each use site, never
materialized). -/
def Sched.compute_inline (s : Sched) (st : StageRef) : Sched :=
  { s with inlined := s.inlined ++ [st] }

/-- Modelled from the spec: `s.cache_read(src, scope, readers)` (not under
`src/`) creates a new cache stage of `src` at memory scope `scope`, read
by `readers`, and returns it. -/
def Sched.cache_read (s : Sched) (src : StageRef) (scope : String)
    (readers : List StageRef) : Sched × StageRef :=
  let st := StageRef.cacheRead src scope
  ({ s with cacheReads := s.cacheReads ++ [(st, readers)] }, st)

/-- Modelled from the spec: `s.cache_write(orig, scope)` (not under
`src/`) creates a new cache stage at scope `scope` in which the value of
`orig` is computed (for a reduction: accumulated), the original stage
becoming a store of the cached value into its output buffer; it returns
the new stage. -/
def Sched.cache_write (s : Sched) (orig : Node) (scope : String) :
    Sched × StageRef :=
  let st := StageRef.cacheWrite orig scope
  ({ s with cacheWrites := s.cacheWrites ++ [st] }, st)

/-- Modelled from the spec: `s[st].set_scope(scope)` (not under `src/`)
sets the memory scope at which the stage's result is stored. -/
def Sched.set_scope (s : Sched) (st : StageRef) (scope : String) : Sched :=
  { s with scopes := s.scopes ++ [(st, scope)] }

/-- Modelled from the spec: `s[st].reorder(axes)` (not under `src/`)
records the given leaf-axis order for the stage. -/
def Sched.reorder (s : Sched) (st : StageRef) (axes : List Axis) : Sched :=
  { s with reorders := s.reorders ++ [(st, axes)] }

/-- Modelled from the spec: `s[st].bind(a, t)` (not under `src/`) binds
iteration axis `a` of the stage to hardware thread axis `t`. -/
def Sched.bind (s : Sched) (st : StageRef) (a : Axis) (t : ThreadAxis) : Sched :=
  { s with binds := s.binds ++ [(st, a, t)] }

/-- Modelled from the spec: `s[st].compute_at(s[anchor], a)` (not under
`src/`) anchors the production of stage `st` at axis `a` of `anchor`. -/
def Sched.compute_at (s : Sched) (st : StageRef) (anchor : StageRef)
    (a : Axis) : Sched :=
  { s with computeAts := s.computeAts ++ [(st, anchor, a)] }

/-- Modelled from the spec: `split(a, factor=f)` (not under `src/`)
splits axis `a` into an outer and an inner axis with inner extent `f`
(total; non-divisible extents are handled by lowering-time guards, the
schedule-time bookkeeping never fails). -/
def splitF (a : Axis) (f : Nat) : Axis × Axis :=
  (.outerF f a, .innerF f a)

/-- Modelled from the spec: `split(a, nparts=n)` (not under `src/`)
splits axis `a` into an outer axis of extent `n` and an inner axis. -/
def splitN (a : Axis) (n : Nat) : Axis × Axis :=
  (.outerN n a, .innerN n a)

/-- List indexing raising a Python `IndexError` when out of range. -/
def idxNat (l : List Nat) (i : Nat) : Except String Nat :=
  match l.get? i with
  | some v => .ok v
  | none => .error "IndexError"

/-- List indexing on node lists, raising `IndexError` when out of range. -/
def idxNode (l : List Node) (i : Nat) : Except String Node :=
  match l.get? i with
  | some v => .ok v
  | none => .error "IndexError"

/-- The `num_thread = 8` schedule parameter of
`schedule_depthwise_conv2d`. -/
def num_thread : Nat := 8

/-- The `num_vthread_x` schedule parameter: initialized to 1 and never
reassigned. -/
def num_vthread_x : Nat := 1

/-- `blocking_h` as assigned in `schedule_depthwise_conv2d`: starts at
`out_height`, set to 48 if `out_height % 48 == 0`, else to 32 if
`out_height % 32 == 0`. -/
def blocking_h (out_height : Nat) : Nat :=
  if out_height % 48 = 0 then 48
  else if out_height % 32 = 0 then 32
  else out_height

/-- `blocking_w` as assigned in `schedule_depthwise_conv2d`: starts at
`out_width`, set to 48 if `out_width % 48 == 0`, else to 32 if
`out_width % 32 == 0`. -/
def blocking_w (out_width : Nat) : Nat :=
  if out_width % 48 = 0 then 48
  else if out_width % 32 = 0 then 32
  else out_width

/-- `num_vthread_y` as assigned in `schedule_depthwise_conv2d`: starts at
1, set to 3 only in the `out_width % 48 == 0` branch. -/
def num_vthread_y (out_width : Nat) : Nat :=
  if out_width % 48 = 0 then 3 else 1

/-- The tiling parameters `(blocking_h, blocking_w, num_vthread_x,
num_vthread_y, num_thread)` derived from the output spatial extents. -/
def tilingParams (out_height out_width : Nat) : Nat × Nat × Nat × Nat × Nat :=
  (blocking_h out_height, blocking_w out_width, num_vthread_x,
   num_vthread_y out_width, num_thread)

/-- The `tvm.thread_axis("blockIdx.x")` hardware axis. -/
def block_x : ThreadAxis := ⟨none, "blockIdx.x", "blockIdx.x"⟩

/-- The `tvm.thread_axis("blockIdx.y")` hardware axis. -/
def block_y : ThreadAxis := ⟨none, "blockIdx.y", "blockIdx.y"⟩

/-- The `tvm.thread_axis((0, num_thread), "threadIdx.x")` hardware axis. -/
def thread_x : ThreadAxis := ⟨some num_thread, "threadIdx.x", "threadIdx.x"⟩

/-- The `tvm.thread_axis((0, num_thread), "threadIdx.y")` hardware axis. -/
def thread_y : ThreadAxis := ⟨some num_thread, "threadIdx.y", "threadIdx.y"⟩

/-- The `tvm.thread_axis((0, num_vthread_x), "vthread", name="vx")`
virtual-thread axis. -/
def thread_vx : ThreadAxis := ⟨some num_vthread_x, "vthread", "vx"⟩

/-- The `tvm.thread_axis((0, num_vthread_y), "vthread", name="vy")`
virtual-thread axis (extent depends on the width rule). -/
def thread_vy (out_width : Nat) : ThreadAxis :=
  ⟨some (num_vthread_y out_width), "vthread", "vy"⟩

/-- The pure body of `schedule_depthwise_conv2d` after its index accesses
have been validated: the exact sequence of builder calls of the source,
with `isOut` standing for `DepthwiseConv2d.op in s.outputs`. -/
def schedule_core (s : Sched) (op : Node) (isOut : Bool)
    (PaddedInput Filter DepthwiseConv2d : Node)
    (out_height out_width channel_multiplier : Nat) : Sched :=
  let s := s.compute_inline (.node PaddedInput)
  let (s, IS) := s.cache_read (.node PaddedInput) "shared" [.node DepthwiseConv2d]
  let (s, FS) := s.cache_read (.node Filter) "shared" [.node DepthwiseConv2d]
  let (s, IL) := s.cache_read IS "local" [.node DepthwiseConv2d]
  let (s, FL) := s.cache_read FS "local" [.node DepthwiseConv2d]
  let (s, Output) :=
    if isOut then
      let (s, _CL) := s.cache_write DepthwiseConv2d "local"
      (s, StageRef.node DepthwiseConv2d)
    else
      (s.set_scope (.node DepthwiseConv2d) "local", StageRef.node op)
  -- split and bind
  let (bx0, bxi) := splitF (.base Output 1) channel_multiplier
  let s := s.reorder Output [.base Output 2, .base Output 3, bxi]
  let bx := Axis.fused (.base Output 0) bx0
  let s := s.bind Output bx block_x
  let (by1, y1i) := splitF (.base Output 2) (blocking_h out_height)
  let (tvx, vxi) := splitN y1i num_vthread_x
  let (tx, xi) := splitN vxi num_thread
  let (by2, y2i) := splitF (.base Output 3) (blocking_w out_width)
  let (tvy, vyi) := splitN y2i (num_vthread_y out_width)
  let (ty, yi) := splitN vyi num_thread
  let s := s.reorder Output [by1, by2, tvx, tvy, tx, ty, xi, yi]
  let byf := Axis.fused by1 by2
  let s := s.bind Output tvx thread_vx
  let s := s.bind Output tvy (thread_vy out_width)
  let s := s.bind Output tx thread_x
  let s := s.bind Output ty thread_y
  let s := s.bind Output byf block_y
  -- local memory load
  let s := s.compute_at IL Output ty
  let s := s.compute_at FL Output ty
  let s :=
    if isOut then s.compute_at (.cacheWrite DepthwiseConv2d "local") Output ty
    else s.compute_at (.node DepthwiseConv2d) Output ty
  -- input's shared memory load
  let s := s.compute_at IS Output byf
  let (istx, _isxi) := splitN (.base IS 2) num_thread
  let (isty, _isyi) := splitN (.base IS 3) num_thread
  let s := s.bind IS istx thread_x
  let s := s.bind IS isty thread_y
  -- filter's shared memory load
  let s := s.compute_at FS Output byf
  let s := s.reorder FS [.base FS 2, .base FS 3, .base FS 1]
  let (fstx, _fsxi) := splitN (.base FS 2) num_thread
  let (fsty, _fsyi) := splitN (.base FS 3) num_thread
  let s := s.bind FS fstx thread_x
  let s := s.bind FS fsty thread_y
  s

/-- The inner `schedule_depthwise_conv2d(PaddedInput, Filter,
DepthwiseConv2d)` of the source.  `op` is the outer function's argument
(the declared output, captured by closure and used as `op.output(0)`),
and `isOut` is `DepthwiseConv2d.op in s.outputs` (object identity: the
convolution is the declared output exactly when it is the root the
traversal started from).  Index accesses (`out_shape[2]`, `out_shape[3]`,
`Filter.shape[1]`, and every `op.axis[i]` access) are validated up front;
since every failure raises the same `IndexError` and no schedule state
escapes a failure, this matches the source's in-place accesses. -/
def schedule_depthwise_conv2d (s : Sched) (op : Node) (isOut : Bool)
    (PaddedInput Filter DepthwiseConv2d : Node) : Except String Sched := do
  let out_height ← idxNat DepthwiseConv2d.shape 2
  let out_width ← idxNat DepthwiseConv2d.shape 3
  let channel_multiplier ← idxNat Filter.shape 1
  let Output := if isOut then DepthwiseConv2d else op
  if 3 < Output.shape.length ∧ 3 < PaddedInput.shape.length ∧
      3 < Filter.shape.length then
    pure (schedule_core s op isOut PaddedInput Filter DepthwiseConv2d
      out_height out_width channel_multiplier)
  else
    throw "IndexError"

mutual

/-- The `traverse(OP)` of the source: inline all one-to-one-mapping
operators except the output, recurse into producers that have input
tensors, and schedule the depthwise convolution when found.  `isOut`
stands for `OP in s.outputs` (object identity: true exactly for the root
call). -/
def traverse (s : Sched) (op : Node) (OP : Node) (isOut : Bool) :
    Except String Sched :=
  match OP with
  | .mk nid tag shape inputs => do
    let s1 ←
      if tag = "ewise" ∨ tag = "scale_shift" then
        let s2 := if isOut then s
                  else s.compute_inline (.node (.mk nid tag shape inputs))
        traverseList s2 op inputs
      else
        pure s
    if tag = "depthwise_conv2d" then do
      let PaddedInput ← idxNode inputs 0
      let Filter ← idxNode inputs 1
      schedule_depthwise_conv2d s1 op isOut PaddedInput Filter
        (.mk nid tag shape inputs)
    else
      pure s1

/-- The `for tensor in OP.input_tensors` loop of `traverse`: recurse into
`tensor.op` when its input-tensor list is nonempty. -/
def traverseList (s : Sched) (op : Node) : List Node → Except String Sched
  | [] => pure s
  | t :: rest => do
    let s1 ← if t.inputs ≠ [] then traverse s op t false else pure s
    traverseList s1 op rest

end

/-- The top-level `schedule_depthwise_conv2d_map(op)`: create a fresh
schedule for `op` and traverse the graph from it. -/
def schedule_depthwise_conv2d_map (op : Node) : Except String Sched :=
  traverse (create_schedule op) op op true

end TVMDepthwise

namespace TVMDepthwise

/-- An input placeholder (leaf) node: no producers. -/
def leafNode (i : Nat) (shape : List Nat) : Node := .mk i "" shape []

/-- A padding node over an input, as produced upstream of the
convolution. -/
def padNode (i : Nat) (shape : List Nat) (inp : Node) : Node :=
  .mk i "pad" shape [inp]

/-- A depthwise-convolution graph with no epilogue: the convolution node
(output channels `c`, spatial extents `H × W`) is the declared output;
its producers are a padding node over an input placeholder and a filter
placeholder with channel multiplier `m` and kernel extents `kh × kw`. -/
def convGraph (c m H W kh kw : Nat) : Node :=
  .mk 4 "depthwise_conv2d" [1, c, H, W]
    [padNode 2 [1, c, H + kh - 1, W + kw - 1] (leafNode 1 [1, c, H, W]),
     leafNode 3 [c, m, kh, kw]]

/-- The convolution graph followed by one elementwise epilogue node,
which is the declared output. -/
def epiGraph (c m H W kh kw : Nat) : Node :=
  .mk 9 "ewise" [1, c, H, W] [convGraph c m H W kh kw]

end TVMDepthwise

namespace TVMDepthwise

theorem exc_bind_ok {ε α β : Type} (a : α) (f : α → Except ε β) :
    ((Except.ok a : Except ε α) >>= f) = f a := rfl

theorem exc_bind_error {ε α β : Type} (e : ε) (f : α → Except ε β) :
    ((Except.error e : Except ε α) >>= f) = Except.error e := rfl

theorem exc_pure_eq {ε α : Type} (a : α) :
    (pure a : Except ε α) = Except.ok a := rfl

theorem exc_throw_eq {ε α : Type} (e : ε) :
    (throw e : Except ε α) = Except.error e := rfl

theorem idxNode_ok {l : List Node} {i : Nat} {v : Node} :
    idxNode l i = .ok v ↔ l.get? i = some v := by
  unfold idxNode
  cases h : l.get? i <;> simp

mutual

/-- All nodes of the graph reachable from `OP` (including `OP`). -/
def allNodes (OP : Node) : List Node :=
  match OP with
  | .mk nid tag shape inputs => .mk nid tag shape inputs :: allNodesList inputs

/-- All nodes reachable from a list of producers. -/
def allNodesList : List Node → List Node
  | [] => []
  | n :: ns => allNodes n ++ allNodesList ns

end

/-- The identities of all nodes of the graph; the graphs the source runs
on have pairwise distinct node objects, modelled as `(nodeIds g).Nodup`. -/
def nodeIds (OP : Node) : List Nat := (allNodes OP).map Node.nid

mutual

/-- The sequence of `compute_inline` marks the traversal records on a run
from `OP` with output flag `isOut` (mirrors the control flow of
`traverse`): an elementwise / scale-shift node marks itself when it is
not the declared output and then recurses; a depthwise-convolution node
marks its first producer (the padded input) inside
`schedule_depthwise_conv2d`. -/
def inlineMarks (OP : Node) (isOut : Bool) : List StageRef :=
  match OP with
  | .mk nid tag shape inputs =>
    (if tag = "ewise" ∨ tag = "scale_shift" then
      (if isOut then [] else [StageRef.node (.mk nid tag shape inputs)]) ++
        inlineMarksList inputs
     else []) ++
    (if tag = "depthwise_conv2d" then
      match inputs.get? 0 with
      | some pi => [StageRef.node pi]
      | none => []
     else [])

/-- The inline marks recorded by the producer loop of `traverse`. -/
def inlineMarksList : List Node → List StageRef
  | [] => []
  | t :: rest =>
    (if t.inputs ≠ [] then inlineMarks t false else []) ++ inlineMarksList rest

end

mutual

/-- The nodes `traverse` is invoked on, with the output flag of each
invocation (mirrors the control flow of `traverse`). -/
def visitedPairs (OP : Node) (isOut : Bool) : List (Node × Bool) :=
  match OP with
  | .mk nid tag shape inputs =>
    (.mk nid tag shape inputs, isOut) ::
      (if tag = "ewise" ∨ tag = "scale_shift" then visitedPairsList inputs
       else [])

/-- The visits made by the producer loop of `traverse`. -/
def visitedPairsList : List Node → List (Node × Bool)
  | [] => []
  | t :: rest =>
    (if t.inputs ≠ [] then visitedPairs t false else []) ++ visitedPairsList rest

end

mutual

/-- The recursive-call edges of the traversal: `(p, c)` when visiting `p`
recurses into its producer `c` (mirrors the control flow of `traverse`). -/
def recursionEdges (OP : Node) : List (Node × Node) :=
  match OP with
  | .mk nid tag shape inputs =>
    if tag = "ewise" ∨ tag = "scale_shift" then
      recursionEdgesList (.mk nid tag shape inputs) inputs
    else []

/-- The recursion edges contributed by the producer loop of `traverse`. -/
def recursionEdgesList (p : Node) : List Node → List (Node × Node)
  | [] => []
  | t :: rest =>
    (if t.inputs ≠ [] then (p, t) :: recursionEdges t else []) ++
      recursionEdgesList p rest

end

end TVMDepthwise

namespace TVMDepthwise

theorem schedule_core_inlined (s : Sched) (op : Node) (isOut : Bool)
    (PaddedInput Filter DepthwiseConv2d : Node) (h w m : Nat) :
    (schedule_core s op isOut PaddedInput Filter DepthwiseConv2d h w m).inlined
      = s.inlined ++ [.node PaddedInput] := by
  cases isOut <;>
    simp [schedule_core, Sched.compute_inline, Sched.cache_read,
      Sched.cache_write, Sched.set_scope, Sched.reorder, Sched.bind,
      Sched.compute_at, splitF, splitN]

theorem schedule_core_outputs (s : Sched) (op : Node) (isOut : Bool)
    (PaddedInput Filter DepthwiseConv2d : Node) (h w m : Nat) :
    (schedule_core s op isOut PaddedInput Filter DepthwiseConv2d h w m).outputs
      = s.outputs := by
  cases isOut <;>
    simp [schedule_core, Sched.compute_inline, Sched.cache_read,
      Sched.cache_write, Sched.set_scope, Sched.reorder, Sched.bind,
      Sched.compute_at, splitF, splitN]

theorem schedule_dw_ok (s : Sched) (op : Node) (isOut : Bool)
    (PaddedInput Filter DepthwiseConv2d : Node) (s' : Sched)
    (hok : schedule_depthwise_conv2d s op isOut PaddedInput Filter
      DepthwiseConv2d = .ok s') :
    s'.inlined = s.inlined ++ [.node PaddedInput] ∧ s'.outputs = s.outputs := by
  unfold schedule_depthwise_conv2d at hok
  cases h2 : idxNat DepthwiseConv2d.shape 2 with
  | error e => rw [h2] at hok; simp [exc_bind_error] at hok
  | ok oh =>
    rw [h2] at hok; rw [exc_bind_ok] at hok
    cases h3 : idxNat DepthwiseConv2d.shape 3 with
    | error e => rw [h3] at hok; simp [exc_bind_error] at hok
    | ok ow =>
      rw [h3] at hok; rw [exc_bind_ok] at hok
      cases h4 : idxNat Filter.shape 1 with
      | error e => rw [h4] at hok; simp [exc_bind_error] at hok
      | ok cm =>
        rw [h4] at hok; rw [exc_bind_ok] at hok
        by_cases hc : 3 < (if isOut then DepthwiseConv2d else op).shape.length ∧
            3 < PaddedInput.shape.length ∧ 3 < Filter.shape.length
        · rw [if_pos hc] at hok
          simp only [exc_pure_eq, Except.ok.injEq] at hok
          subst hok
          exact ⟨schedule_core_inlined .., schedule_core_outputs ..⟩
        · rw [if_neg hc] at hok
          simp [exc_throw_eq] at hok

end TVMDepthwise

namespace TVMDepthwise

theorem tag_not_conv_of_ewise {tag : String}
    (h : tag = "ewise" ∨ tag = "scale_shift") : ¬ tag = "depthwise_conv2d" := by
  rcases h with rfl | rfl <;> decide

mutual

theorem traverse_ok (s : Sched) (op : Node) (OP : Node) (isOut : Bool)
    (s' : Sched) (h : traverse s op OP isOut = .ok s') :
    s'.inlined = s.inlined ++ inlineMarks OP isOut ∧ s'.outputs = s.outputs := by
  match OP with
  | .mk nid tag shape inputs =>
    rw [traverse] at h
    by_cases hew : tag = "ewise" ∨ tag = "scale_shift"
    · have hnc := tag_not_conv_of_ewise hew
      rw [if_pos hew] at h
      simp only [if_neg hnc, bind_pure] at h
      have ihl := traverseList_ok
        (if isOut then s
         else s.compute_inline (.node (.mk nid tag shape inputs))) op inputs s' h
      cases isOut with
      | true =>
        simpa [inlineMarks, if_pos hew, if_neg hnc] using ihl
      | false =>
        simp only [if_neg (Bool.false_ne_true), Sched.compute_inline] at ihl
        simpa [inlineMarks, if_pos hew, if_neg hnc, List.append_assoc] using ihl
    · simp only [if_neg hew, exc_pure_eq, exc_bind_ok] at h
      by_cases hcv : tag = "depthwise_conv2d"
      · rw [if_pos hcv] at h
        cases h0 : idxNode inputs 0 with
        | error e => rw [h0, exc_bind_error] at h; cases h
        | ok pi =>
          rw [h0, exc_bind_ok] at h
          cases h1 : idxNode inputs 1 with
          | error e => rw [h1, exc_bind_error] at h; cases h
          | ok fi =>
            rw [h1, exc_bind_ok] at h
            have hdw := schedule_dw_ok s op isOut pi fi
              (.mk nid tag shape inputs) s' h
            have hmarks : inlineMarks (.mk nid tag shape inputs) isOut
                = [StageRef.node pi] := by
              simp only [inlineMarks, if_neg hew, if_pos hcv, List.nil_append]
              rw [idxNode_ok.mp h0]
            exact ⟨by rw [hdw.1, hmarks], hdw.2⟩
      · rw [if_neg hcv] at h
        cases h
        simp [inlineMarks, if_neg hew, if_neg hcv]

theorem traverseList_ok (s : Sched) (op : Node) (l : List Node) (s' : Sched)
    (h : traverseList s op l = .ok s') :
    s'.inlined = s.inlined ++ inlineMarksList l ∧ s'.outputs = s.outputs := by
  match l with
  | [] =>
    rw [traverseList] at h
    cases h
    simp [inlineMarksList]
  | t :: rest =>
    rw [traverseList] at h
    by_cases ht : t.inputs ≠ []
    · rw [if_pos ht] at h
      cases h1 : traverse s op t false with
      | error e => rw [h1, exc_bind_error] at h; cases h
      | ok mid =>
        rw [h1, exc_bind_ok] at h
        have ih1 := traverse_ok s op t false mid h1
        have ih2 := traverseList_ok mid op rest s' h
        refine ⟨?_, ih2.2.trans ih1.2⟩
        rw [ih2.1, ih1.1]
        simp [inlineMarksList, if_pos ht, List.append_assoc]
    · rw [if_neg ht, exc_pure_eq, exc_bind_ok] at h
      have ih2 := traverseList_ok s op rest s' h
      refine ⟨?_, ih2.2⟩
      rw [ih2.1]
      simp [inlineMarksList, if_neg ht]

end

end TVMDepthwise

namespace TVMDepthwise

theorem allNodes_eq (nid : Nat) (tag : String) (shape : List Nat)
    (inputs : List Node) :
    allNodes (.mk nid tag shape inputs)
      = .mk nid tag shape inputs :: allNodesList inputs := by
  rw [allNodes]

theorem self_mem_allNodes (n : Node) : n ∈ allNodes n := by
  cases n with
  | mk nid tag shape inputs => rw [allNodes_eq]; exact List.mem_cons_self _ _

theorem mem_allNodesList_of {t : Node} {l : List Node} (ht : t ∈ l)
    {n : Node} (hn : n ∈ allNodes t) : n ∈ allNodesList l := by
  induction l with
  | nil => cases ht
  | cons a as ih =>
    rw [allNodesList]
    rcases List.mem_cons.mp ht with rfl | hmem
    · exact List.mem_append_left _ hn
    · exact List.mem_append_right _ (ih hmem)

mutual

theorem inlineMarks_sub (OP : Node) (isOut : Bool) (r : StageRef)
    (hr : r ∈ inlineMarks OP isOut) :
    ∃ n, r = .node n ∧
      n ∈ (if isOut then allNodesList OP.inputs else allNodes OP) := by
  match OP with
  | .mk nid tag shape inputs =>
    rw [inlineMarks] at hr
    rcases List.mem_append.mp hr with hr1 | hr2
    · by_cases hew : tag = "ewise" ∨ tag = "scale_shift"
      · rw [if_pos hew] at hr1
        rcases List.mem_append.mp hr1 with hself | hlist
        · cases isOut with
          | true => simp at hself
          | false =>
            simp only [if_neg (Bool.false_ne_true), List.mem_singleton] at hself
            exact ⟨.mk nid tag shape inputs, hself, by
              simp only [Bool.false_eq_true, if_neg]
              exact self_mem_allNodes _⟩
        · obtain ⟨n, hn, hmem⟩ := inlineMarksList_sub inputs r hlist
          refine ⟨n, hn, ?_⟩
          cases isOut with
          | true => simpa [Node.inputs] using hmem
          | false =>
            simp only [Bool.false_eq_true, if_neg]
            rw [allNodes_eq]
            exact List.mem_cons_of_mem _ hmem
      · rw [if_neg hew] at hr1; cases hr1
    · by_cases hcv : tag = "depthwise_conv2d"
      · rw [if_pos hcv] at hr2
        cases h0 : inputs.get? 0 with
        | none => rw [h0] at hr2; cases hr2
        | some pi =>
          rw [h0] at hr2
          have hpi : pi ∈ inputs := List.get?_mem h0
          have hmem : pi ∈ allNodesList inputs :=
            mem_allNodesList_of hpi (self_mem_allNodes pi)
          rcases List.mem_singleton.mp hr2 with rfl
          refine ⟨pi, rfl, ?_⟩
          cases isOut with
          | true => simpa [Node.inputs] using hmem
          | false =>
            simp only [Bool.false_eq_true, if_neg]
            rw [allNodes_eq]
            exact List.mem_cons_of_mem _ hmem
      · rw [if_neg hcv] at hr2; cases hr2

theorem inlineMarksList_sub (l : List Node) (r : StageRef)
    (hr : r ∈ inlineMarksList l) :
    ∃ n, r = .node n ∧ n ∈ allNodesList l := by
  match l with
  | [] => rw [inlineMarksList] at hr; cases hr
  | t :: rest =>
    rw [inlineMarksList] at hr
    rcases List.mem_append.mp hr with hr1 | hr2
    · by_cases ht : t.inputs ≠ []
      · rw [if_pos ht] at hr1
        obtain ⟨n, hn, hmem⟩ := inlineMarks_sub t false r hr1
        simp only [Bool.false_eq_true, if_neg] at hmem
        refine ⟨n, hn, ?_⟩
        rw [allNodesList]
        exact List.mem_append_left _ hmem
      · rw [if_neg ht] at hr1; cases hr1
    · obtain ⟨n, hn, hmem⟩ := inlineMarksList_sub rest r hr2
      refine ⟨n, hn, ?_⟩
      rw [allNodesList]
      exact List.mem_append_right _ hmem

end

theorem root_not_inlineMarks (g : Node) (hnd : (nodeIds g).Nodup) :
    StageRef.node g ∉ inlineMarks g true := by
  intro hmem
  obtain ⟨n, hn, hsub⟩ := inlineMarks_sub g true _ hmem
  cases StageRef.node.injEq g n ▸ hn
  simp only [if_pos] at hsub
  have hid : g.nid ∈ (allNodesList g.inputs).map Node.nid :=
    List.mem_map_of_mem _ hsub
  cases g with
  | mk nid tag shape inputs =>
    unfold nodeIds at hnd
    rw [allNodes_eq, List.map_cons] at hnd
    exact (List.nodup_cons.mp hnd).1 (by simpa [Node.inputs, Node.nid] using hid)

end TVMDepthwise

namespace TVMDepthwise

mutual

theorem visited_inlined (OP : Node) (isOut : Bool) (n : Node)
    (hm : (n, false) ∈ visitedPairs OP isOut)
    (hew : n.tag = "ewise" ∨ n.tag = "scale_shift") :
    StageRef.node n ∈ inlineMarks OP isOut := by
  match OP with
  | .mk nid tag shape inputs =>
    rw [visitedPairs] at hm
    rcases List.mem_cons.mp hm with hself | htail
    · have hn : n = .mk nid tag shape inputs := congrArg Prod.fst hself
      have hb : isOut = false := (congrArg Prod.snd hself).symm
      subst hn
      subst hb
      rw [inlineMarks]
      have hewt : tag = "ewise" ∨ tag = "scale_shift" := by
        simpa [Node.tag] using hew
      apply List.mem_append_left
      rw [if_pos hewt]
      apply List.mem_append_left
      simp
    · by_cases hewt : tag = "ewise" ∨ tag = "scale_shift"
      · rw [if_pos hewt] at htail
        have := visitedList_inlined inputs n htail hew
        rw [inlineMarks]
        apply List.mem_append_left
        rw [if_pos hewt]
        exact List.mem_append_right _ this
      · rw [if_neg hewt] at htail; cases htail

theorem visitedList_inlined (l : List Node) (n : Node)
    (hm : (n, false) ∈ visitedPairsList l)
    (hew : n.tag = "ewise" ∨ n.tag = "scale_shift") :
    StageRef.node n ∈ inlineMarksList l := by
  match l with
  | [] => rw [visitedPairsList] at hm; cases hm
  | t :: rest =>
    rw [visitedPairsList] at hm
    rw [inlineMarksList]
    rcases List.mem_append.mp hm with hm1 | hm2
    · by_cases ht : t.inputs ≠ []
      · rw [if_pos ht] at hm1
        apply List.mem_append_left
        rw [if_pos ht]
        exact visited_inlined t false n hm1 hew
      · rw [if_neg ht] at hm1; cases hm1
    · exact List.mem_append_right _ (visitedList_inlined rest n hm2 hew)

end

mutual

theorem visited_nonroot_nonleaf (OP : Node) (isOut : Bool)
    (hg : isOut = false → OP.inputs ≠ []) (n : Node)
    (hm : (n, false) ∈ visitedPairs OP isOut) : n.inputs ≠ [] := by
  match OP with
  | .mk nid tag shape inputs =>
    rw [visitedPairs] at hm
    rcases List.mem_cons.mp hm with hself | htail
    · have hn : n = .mk nid tag shape inputs := congrArg Prod.fst hself
      have hb : isOut = false := (congrArg Prod.snd hself).symm
      subst hn
      exact hg hb
    · by_cases hewt : tag = "ewise" ∨ tag = "scale_shift"
      · rw [if_pos hewt] at htail
        exact visitedList_nonroot_nonleaf inputs n htail
      · rw [if_neg hewt] at htail; cases htail

theorem visitedList_nonroot_nonleaf (l : List Node) (n : Node)
    (hm : (n, false) ∈ visitedPairsList l) : n.inputs ≠ [] := by
  match l with
  | [] => rw [visitedPairsList] at hm; cases hm
  | t :: rest =>
    rw [visitedPairsList] at hm
    rcases List.mem_append.mp hm with hm1 | hm2
    · by_cases ht : t.inputs ≠ []
      · rw [if_pos ht] at hm1
        exact visited_nonroot_nonleaf t false (fun _ => ht) n hm1
      · rw [if_neg ht] at hm1; cases hm1
    · exact visitedList_nonroot_nonleaf rest n hm2

end

mutual

theorem recursionEdges_spec (OP : Node) (p c : Node)
    (h : (p, c) ∈ recursionEdges OP) :
    (p.tag = "ewise" ∨ p.tag = "scale_shift") ∧ c ∈ p.inputs ∧
      c.inputs ≠ [] := by
  match OP with
  | .mk nid tag shape inputs =>
    rw [recursionEdges] at h
    by_cases hewt : tag = "ewise" ∨ tag = "scale_shift"
    · rw [if_pos hewt] at h
      rcases recursionEdgesList_spec (.mk nid tag shape inputs) inputs p c h with
        ⟨rfl, hc, hcl⟩ | hind
      · exact ⟨by simpa [Node.tag] using hewt, by simpa [Node.inputs] using hc, hcl⟩
      · exact hind
    · rw [if_neg hewt] at h; cases h

theorem recursionEdgesList_spec (q : Node) (l : List Node) (p c : Node)
    (h : (p, c) ∈ recursionEdgesList q l) :
    (p = q ∧ c ∈ l ∧ c.inputs ≠ []) ∨
      ((p.tag = "ewise" ∨ p.tag = "scale_shift") ∧ c ∈ p.inputs ∧
        c.inputs ≠ []) := by
  match l with
  | [] => rw [recursionEdgesList] at h; cases h
  | t :: rest =>
    rw [recursionEdgesList] at h
    rcases List.mem_append.mp h with h1 | h2
    · by_cases ht : t.inputs ≠ []
      · rw [if_pos ht] at h1
        rcases List.mem_cons.mp h1 with hhead | htail
        · have hp : p = q := congrArg Prod.fst hhead
          have hc : c = t := congrArg Prod.snd hhead
          subst hp; subst hc
          exact Or.inl ⟨rfl, List.mem_cons_self _ _, ht⟩
        · exact Or.inr (recursionEdges_spec t p c htail)
      · rw [if_neg ht] at h1; cases h1
    · rcases recursionEdgesList_spec q rest p c h2 with ⟨rfl, hc, hcl⟩ | hind
      · exact Or.inl ⟨rfl, List.mem_cons_of_mem _ hc, hcl⟩
      · exact Or.inr hind

end

theorem recursionEdges_stops (OP : Node)
    (h : ¬ (OP.tag = "ewise" ∨ OP.tag = "scale_shift")) :
    recursionEdges OP = [] := by
  match OP with
  | .mk nid tag shape inputs =>
    rw [recursionEdges]
    rw [if_neg (by simpa [Node.tag] using h)]

end TVMDepthwise

namespace TVMDepthwise

mutual

/-- The inline marks recorded by the elementwise / scale-shift branch of
`traverse` itself (excluding the padded-input inline mark recorded inside
`schedule_depthwise_conv2d`). -/
def ewiseMarks (OP : Node) (isOut : Bool) : List StageRef :=
  match OP with
  | .mk nid tag shape inputs =>
    if tag = "ewise" ∨ tag = "scale_shift" then
      (if isOut then [] else [StageRef.node (.mk nid tag shape inputs)]) ++
        ewiseMarksList inputs
    else []

/-- The elementwise-branch inline marks of the producer loop. -/
def ewiseMarksList : List Node → List StageRef
  | [] => []
  | t :: rest =>
    (if t.inputs ≠ [] then ewiseMarks t false else []) ++ ewiseMarksList rest

end

mutual

theorem ewiseMarks_sub (OP : Node) (isOut : Bool) (r : StageRef)
    (hr : r ∈ ewiseMarks OP isOut) : r ∈ inlineMarks OP isOut := by
  match OP with
  | .mk nid tag shape inputs =>
    rw [ewiseMarks] at hr
    rw [inlineMarks]
    by_cases hewt : tag = "ewise" ∨ tag = "scale_shift"
    · rw [if_pos hewt] at hr
      apply List.mem_append_left
      rw [if_pos hewt]
      rcases List.mem_append.mp hr with h1 | h2
      · exact List.mem_append_left _ h1
      · exact List.mem_append_right _ (ewiseMarksList_sub inputs r h2)
    · rw [if_neg hewt] at hr; cases hr

theorem ewiseMarksList_sub (l : List Node) (r : StageRef)
    (hr : r ∈ ewiseMarksList l) : r ∈ inlineMarksList l := by
  match l with
  | [] => rw [ewiseMarksList] at hr; cases hr
  | t :: rest =>
    rw [ewiseMarksList] at hr
    rw [inlineMarksList]
    rcases List.mem_append.mp hr with h1 | h2
    · by_cases ht : t.inputs ≠ []
      · rw [if_pos ht] at h1
        apply List.mem_append_left
        rw [if_pos ht]
        exact ewiseMarks_sub t false r h1
      · rw [if_neg ht] at h1; cases h1
    · exact List.mem_append_right _ (ewiseMarksList_sub rest r h2)

end

mutual

theorem ewiseMarks_nonleaf (OP : Node) (isOut : Bool)
    (hg : isOut = false → OP.inputs ≠ []) (r : StageRef)
    (hr : r ∈ ewiseMarks OP isOut) :
    ∃ n, r = .node n ∧ n.inputs ≠ [] ∧
      (n.tag = "ewise" ∨ n.tag = "scale_shift") := by
  match OP with
  | .mk nid tag shape inputs =>
    rw [ewiseMarks] at hr
    by_cases hewt : tag = "ewise" ∨ tag = "scale_shift"
    · rw [if_pos hewt] at hr
      rcases List.mem_append.mp hr with h1 | h2
      · cases isOut with
        | true => simp at h1
        | false =>
          simp only [if_neg (Bool.false_ne_true), List.mem_singleton] at h1
          exact ⟨.mk nid tag shape inputs, h1,
            by simpa [Node.inputs] using hg rfl,
            by simpa [Node.tag] using hewt⟩
      · exact ewiseMarksList_nonleaf inputs r h2
    · rw [if_neg hewt] at hr; cases hr

theorem ewiseMarksList_nonleaf (l : List Node) (r : StageRef)
    (hr : r ∈ ewiseMarksList l) :
    ∃ n, r = .node n ∧ n.inputs ≠ [] ∧
      (n.tag = "ewise" ∨ n.tag = "scale_shift") := by
  match l with
  | [] => rw [ewiseMarksList] at hr; cases hr
  | t :: rest =>
    rw [ewiseMarksList] at hr
    rcases List.mem_append.mp hr with h1 | h2
    · by_cases ht : t.inputs ≠ []
      · rw [if_pos ht] at h1
        exact ewiseMarks_nonleaf t false (fun _ => ht) r h1
      · rw [if_neg ht] at h1; cases h1
    · exact ewiseMarksList_nonleaf rest r h2

end

end TVMDepthwise

namespace TVMDepthwise

mutual

/-- Erase node identities throughout a graph, keeping its structure
(tags, shapes, producer lists): two graphs are structurally identical
exactly when their erasures are equal. -/
def stripNode : Node → Node
  | .mk _ tag shape inputs => .mk 0 tag shape (stripNodeList inputs)

/-- Erase node identities in a producer list. -/
def stripNodeList : List Node → List Node
  | [] => []
  | n :: ns => stripNode n :: stripNodeList ns

end

/-- Erase node identities inside a stage reference. -/
def stripRef : StageRef → StageRef
  | .node n => .node (stripNode n)
  | .cacheRead src scope => .cacheRead (stripRef src) scope
  | .cacheWrite n scope => .cacheWrite (stripNode n) scope

/-- Erase node identities inside an axis term. -/
def stripAxis : Axis → Axis
  | .base st i => .base (stripRef st) i
  | .outerF f a => .outerF f (stripAxis a)
  | .innerF f a => .innerF f (stripAxis a)
  | .outerN n a => .outerN n (stripAxis a)
  | .innerN n a => .innerN n (stripAxis a)
  | .fused a b => .fused (stripAxis a) (stripAxis b)

/-- Erase node identities throughout a schedule, keeping every recorded
decision: tile sizes, scopes, reorders, bindings and anchors. -/
def stripSched (s : Sched) : Sched :=
  { outputs := s.outputs.map stripNode,
    inlined := s.inlined.map stripRef,
    scopes := s.scopes.map (fun p => (stripRef p.1, p.2)),
    cacheReads := s.cacheReads.map (fun p => (stripRef p.1, p.2.map stripRef)),
    cacheWrites := s.cacheWrites.map stripRef,
    reorders := s.reorders.map (fun p => (stripRef p.1, p.2.map stripAxis)),
    binds := s.binds.map (fun p => (stripRef p.1, stripAxis p.2.1, p.2.2)),
    computeAts :=
      s.computeAts.map (fun p => (stripRef p.1, stripRef p.2.1, stripAxis p.2.2)) }

/-- Erase node identities in a schedule-construction result. -/
def stripExc : Except String Sched → Except String Sched
  | .ok s => .ok (stripSched s)
  | .error e => .error e

theorem stripNode_tag (n : Node) : (stripNode n).tag = n.tag := by
  cases n with
  | mk nid tag shape inputs => rw [stripNode, Node.tag, Node.tag]

theorem stripNode_shape (n : Node) : (stripNode n).shape = n.shape := by
  cases n with
  | mk nid tag shape inputs => rw [stripNode, Node.shape, Node.shape]

theorem stripNode_inputs (n : Node) :
    (stripNode n).inputs = stripNodeList n.inputs := by
  cases n with
  | mk nid tag shape inputs => rw [stripNode, Node.inputs, Node.inputs]

theorem stripNodeList_get? (l : List Node) (i : Nat) :
    (stripNodeList l).get? i = (l.get? i).map stripNode := by
  induction l generalizing i with
  | nil => rw [stripNodeList]; cases i <;> simp
  | cons a as ih =>
    rw [stripNodeList]
    cases i with
    | zero => simp
    | succ j => simpa using ih j

theorem stripNodeList_eq_nil (l : List Node) :
    stripNodeList l = [] ↔ l = [] := by
  cases l with
  | nil => rw [stripNodeList]
  | cons a as => rw [stripNodeList]; simp

theorem strip_core (s : Sched) (op : Node) (isOut : Bool)
    (PaddedInput Filter DepthwiseConv2d : Node) (h w m : Nat) :
    stripSched (schedule_core s op isOut PaddedInput Filter DepthwiseConv2d h w m)
      = schedule_core (stripSched s) (stripNode op) isOut (stripNode PaddedInput)
        (stripNode Filter) (stripNode DepthwiseConv2d) h w m := by
  cases isOut <;>
    simp [schedule_core, Sched.compute_inline, Sched.cache_read,
      Sched.cache_write, Sched.set_scope, Sched.reorder, Sched.bind,
      Sched.compute_at, splitF, splitN, stripSched, stripRef, stripAxis,
      List.map_append]

end TVMDepthwise

namespace TVMDepthwise

theorem strip_dw (s : Sched) (op : Node) (isOut : Bool)
    (PaddedInput Filter DepthwiseConv2d : Node) :
    stripExc (schedule_depthwise_conv2d s op isOut PaddedInput Filter
        DepthwiseConv2d)
      = schedule_depthwise_conv2d (stripSched s) (stripNode op) isOut
        (stripNode PaddedInput) (stripNode Filter) (stripNode DepthwiseConv2d) := by
  unfold schedule_depthwise_conv2d
  rw [stripNode_shape DepthwiseConv2d, stripNode_shape Filter,
    stripNode_shape PaddedInput]
  cases h2 : idxNat DepthwiseConv2d.shape 2 with
  | error e => rw [exc_bind_error, exc_bind_error, stripExc]
  | ok oh =>
    rw [exc_bind_ok, exc_bind_ok]
    cases h3 : idxNat DepthwiseConv2d.shape 3 with
    | error e => rw [exc_bind_error, exc_bind_error, stripExc]
    | ok ow =>
      rw [exc_bind_ok, exc_bind_ok]
      cases h4 : idxNat Filter.shape 1 with
      | error e => rw [exc_bind_error, exc_bind_error, stripExc]
      | ok cm =>
        rw [exc_bind_ok, exc_bind_ok]
        cases isOut with
        | true =>
          rw [if_pos rfl, if_pos rfl]
          dsimp only
          rw [stripNode_shape DepthwiseConv2d]
          by_cases hc : 3 < DepthwiseConv2d.shape.length ∧
              3 < PaddedInput.shape.length ∧ 3 < Filter.shape.length
          · rw [if_pos hc, if_pos hc, exc_pure_eq, stripExc, strip_core]
            exact rfl
          · rw [if_neg hc, if_neg hc, exc_throw_eq, stripExc]
        | false =>
          rw [if_neg Bool.false_ne_true, if_neg Bool.false_ne_true]
          dsimp only
          rw [stripNode_shape op]
          by_cases hc : 3 < op.shape.length ∧ 3 < PaddedInput.shape.length ∧
              3 < Filter.shape.length
          · rw [if_pos hc, if_pos hc, exc_pure_eq, stripExc, strip_core]
            exact rfl
          · rw [if_neg hc, if_neg hc, exc_throw_eq, stripExc]

theorem strip_compute_inline (s : Sched) (r : StageRef) :
    stripSched (s.compute_inline r) = (stripSched s).compute_inline (stripRef r) := by
  simp [Sched.compute_inline, stripSched]

theorem idxNode_strip (l : List Node) (i : Nat) :
    idxNode (stripNodeList l) i = (idxNode l i).map stripNode := by
  unfold idxNode
  rw [stripNodeList_get?]
  cases l.get? i <;> simp [Except.map]

mutual

theorem strip_traverse (s : Sched) (op : Node) (OP : Node) (isOut : Bool) :
    stripExc (traverse s op OP isOut)
      = traverse (stripSched s) (stripNode op) (stripNode OP) isOut := by
  match OP with
  | .mk nid tag shape inputs =>
    rw [stripNode, traverse, traverse]
    by_cases hew : tag = "ewise" ∨ tag = "scale_shift"
    · have hnc := tag_not_conv_of_ewise hew
      rw [if_pos hew, if_pos hew]
      simp only [if_neg hnc, bind_pure]
      have hbody :
          stripSched (if isOut then s
            else s.compute_inline (.node (.mk nid tag shape inputs)))
          = (if isOut then stripSched s
            else (stripSched s).compute_inline
              (.node (.mk 0 tag shape (stripNodeList inputs)))) := by
        cases isOut with
        | true => simp
        | false =>
          rw [if_neg Bool.false_ne_true, if_neg Bool.false_ne_true,
            strip_compute_inline, stripRef, stripNode]
      rw [← hbody]
      exact strip_traverseList _ op inputs
    · rw [if_neg hew, if_neg hew]
      simp only [exc_pure_eq, exc_bind_ok]
      by_cases hcv : tag = "depthwise_conv2d"
      · rw [if_pos hcv, if_pos hcv]
        rw [idxNode_strip]
        cases h0 : idxNode inputs 0 with
        | error e =>
          simp only [exc_bind_error, Except.map, stripExc]
        | ok pi =>
          simp only [exc_bind_ok, Except.map]
          rw [idxNode_strip]
          cases h1 : idxNode inputs 1 with
          | error e =>
            simp only [exc_bind_error, Except.map, stripExc]
          | ok fi =>
            simp only [exc_bind_ok, Except.map]
            rw [strip_dw, stripNode]
      · rw [if_neg hcv, if_neg hcv]
        rw [stripExc]

theorem strip_traverseList (s : Sched) (op : Node) (l : List Node) :
    stripExc (traverseList s op l)
      = traverseList (stripSched s) (stripNode op) (stripNodeList l) := by
  match l with
  | [] =>
    rw [stripNodeList, traverseList, traverseList, exc_pure_eq, exc_pure_eq,
      stripExc]
  | t :: rest =>
    rw [stripNodeList, traverseList, traverseList]
    by_cases ht : t.inputs ≠ []
    · have hst : (stripNode t).inputs ≠ [] := by
        rw [stripNode_inputs]
        intro hh
        exact ht ((stripNodeList_eq_nil t.inputs).mp hh)
      rw [if_pos ht, if_pos hst]
      cases hx : traverse s op t false with
      | error e =>
        have ihx := strip_traverse s op t false
        rw [hx] at ihx
        rw [← ihx]
        simp only [stripExc, exc_bind_error]
      | ok mid =>
        have ihx := strip_traverse s op t false
        rw [hx] at ihx
        rw [← ihx]
        simp only [stripExc, exc_bind_ok]
        exact strip_traverseList mid op rest
    · have hst : ¬ (stripNode t).inputs ≠ [] := by
        rw [stripNode_inputs]
        simp only [ne_eq, not_not] at ht ⊢
        rw [ht, stripNodeList]
      rw [if_neg ht, if_neg hst, exc_pure_eq, exc_pure_eq, exc_bind_ok,
        exc_bind_ok]
      exact strip_traverseList s op rest

end

theorem strip_map (g : Node) :
    stripExc (schedule_depthwise_conv2d_map g)
      = schedule_depthwise_conv2d_map (stripNode g) := by
  unfold schedule_depthwise_conv2d_map
  have hcs : stripSched (create_schedule g) = create_schedule (stripNode g) := by
    simp [create_schedule, stripSched]
  rw [strip_traverse, hcs]

end TVMDepthwise

namespace TVMDepthwise

/-- Whether schedule construction succeeded (returned a schedule). -/
def okOf : Except String Sched → Bool
  | .ok _ => true
  | .error _ => false

/-- The inline marks of a construction result ([] on failure). -/
def inlinedOf : Except String Sched → List StageRef
  | .ok s => s.inlined
  | .error _ => []

/-- The `set_scope` records of a construction result ([] on failure). -/
def scopesOf : Except String Sched → List (StageRef × String)
  | .ok s => s.scopes
  | .error _ => []

/-- The `cache_read` stages of a construction result ([] on failure). -/
def cacheReadsOf : Except String Sched → List (StageRef × List StageRef)
  | .ok s => s.cacheReads
  | .error _ => []

/-- The `cache_write` stages of a construction result ([] on failure). -/
def cacheWritesOf : Except String Sched → List StageRef
  | .ok s => s.cacheWrites
  | .error _ => []

/-- The recorded reorders of a construction result ([] on failure). -/
def reordersOf : Except String Sched → List (StageRef × List Axis)
  | .ok s => s.reorders
  | .error _ => []

/-- The hardware bindings of a construction result ([] on failure). -/
def bindsOf : Except String Sched → List (StageRef × Axis × ThreadAxis)
  | .ok s => s.binds
  | .error _ => []

/-- The compute-at anchors of a construction result ([] on failure). -/
def computeAtsOf : Except String Sched → List (StageRef × StageRef × Axis)
  | .ok s => s.computeAts
  | .error _ => []

/-- C1: the tiling policy is a deterministic first-match rule table over
the output extents: `bh` is 48 when `H % 48 = 0`, else 32 when
`H % 32 = 0`, else `H`; `bw` is 48 with `vty = 3` when `W % 48 = 0`, else
32 with `vty = 1` when `W % 32 = 0`, else `W` with `vty = 1`; `vtx` is
always 1 and `T` is always 8; in particular `(96, 96)` gives
`(48, 48, 1, 3, 8)`, `(100, 100)` gives `(100, 100, 1, 1, 8)` and
`(64, 64)` gives `(32, 32, 1, 1, 8)`. -/
theorem claim_c1_tiling_policy :
    (∀ H W, tilingParams H W =
      (if H % 48 = 0 then 48 else if H % 32 = 0 then 32 else H,
       if W % 48 = 0 then 48 else if W % 32 = 0 then 32 else W,
       1,
       if W % 48 = 0 then 3 else 1,
       8)) ∧
    tilingParams 96 96 = (48, 48, 1, 3, 8) ∧
    tilingParams 100 100 = (100, 100, 1, 1, 8) ∧
    tilingParams 64 64 = (32, 32, 1, 1, 8) := by
  refine ⟨fun H W => rfl, by decide, by decide, by decide⟩

/-- A producer node whose category tag is outside
{ewise, scale-shift, depthwise-convolution}. -/
def c2Unsupported : Node :=
  .mk 5 "softmax" [1, 16, 32, 32] [leafNode 1 [1, 16, 32, 32]]

/-- A graph whose elementwise root has the unsupported producer, so the
traversal visits it. -/
def c2Graph : Node := .mk 7 "ewise" [1, 16, 32, 32] [c2Unsupported]

/-- C2 counterexample: the traversal visits a producer with an
unsupported category tag, yet schedule construction does not abort: the
node is silently skipped (nothing is recorded for it) and a schedule is
returned. -/
theorem claim_c2_counterexample :
    (c2Unsupported, false) ∈ visitedPairs c2Graph true ∧
      ¬ (c2Unsupported.tag = "ewise" ∨ c2Unsupported.tag = "scale_shift" ∨
        c2Unsupported.tag = "depthwise_conv2d") ∧
      schedule_depthwise_conv2d_map c2Graph = .ok (create_schedule c2Graph) := by
  refine ⟨by decide, by decide, rfl⟩

/-- C2 amended: a visited node whose category is none of
{ewise, scale-shift, depthwise-convolution} is silently skipped: the
traversal records nothing for it, does not recurse, does not abort, and
returns the schedule unchanged. -/
theorem claim_c2_amended (s : Sched) (op OP : Node) (isOut : Bool)
    (h : ¬ (OP.tag = "ewise" ∨ OP.tag = "scale_shift" ∨
      OP.tag = "depthwise_conv2d")) :
    traverse s op OP isOut = .ok s ∧ recursionEdges OP = [] := by
  match OP with
  | .mk nid tag shape inputs =>
    simp only [Node.tag] at h
    push_neg at h
    obtain ⟨h1, h2, h3⟩ := h
    constructor
    · rw [traverse]
      rw [if_neg (by simp [h1, h2])]
      simp only [exc_pure_eq, exc_bind_ok]
      simp only [if_neg h3]
    · rw [recursionEdges]
      rw [if_neg (by simp [h1, h2])]

/-- C2 amended, witness: the unsupported-tag producer is skipped and the
schedule returned unchanged. -/
theorem claim_c2_amended_witness :
    (¬ (c2Unsupported.tag = "ewise" ∨ c2Unsupported.tag = "scale_shift" ∨
      c2Unsupported.tag = "depthwise_conv2d")) ∧
      (traverse (create_schedule c2Graph) c2Graph c2Unsupported false
          = .ok (create_schedule c2Graph) ∧
        recursionEdges c2Unsupported = []) :=
  ⟨by decide, claim_c2_amended (create_schedule c2Graph) c2Graph c2Unsupported
    false (by decide)⟩

/-- A depthwise-convolution graph with output-channel extent 10 and
declared channel multiplier 3 (not divisible). -/
def c3Graph : Node := convGraph 10 3 96 96 3 3

/-- C3 counterexample: with channel-axis extent 10 and multiplier 3 (not
divisible), schedule construction does not fail: a schedule is returned
(the source performs no divisibility check). -/
theorem claim_c3_counterexample :
    okOf (schedule_depthwise_conv2d_map c3Graph) = true ∧
      c3Graph.shape.get? 1 = some 10 ∧
      c3Graph.inputs.get? 1 = some (leafNode 3 [10, 3, 3, 3]) ∧
      ¬ 10 % 3 = 0 := by
  refine ⟨by decide, by decide, by decide, by decide⟩

/-- C3 amended: the channel axis is split by factor equal to the declared
channel multiplier unconditionally — no divisibility check is performed —
and schedule construction succeeds for every extent/multiplier pair; the
fused batch-and-channel-block axis is bound to grid-x regardless. -/
theorem claim_c3_amended (c m H W kh kw : Nat) :
    okOf (schedule_depthwise_conv2d_map (convGraph c m H W kh kw)) = true ∧
      (StageRef.node (convGraph c m H W kh kw),
        Axis.fused (.base (.node (convGraph c m H W kh kw)) 0)
          (.outerF m (.base (.node (convGraph c m H W kh kw)) 1)),
        block_x) ∈
        bindsOf (schedule_depthwise_conv2d_map (convGraph c m H W kh kw)) := by
  constructor <;>
    simp [schedule_depthwise_conv2d_map, traverse, convGraph, padNode, leafNode,
      create_schedule, schedule_depthwise_conv2d, idxNat, idxNode, Node.shape,
      Node.inputs, schedule_core, Sched.compute_inline, Sched.cache_read,
      Sched.cache_write, Sched.set_scope, Sched.reorder, Sched.bind,
      Sched.compute_at, splitF, splitN, okOf, bindsOf, exc_bind_ok,
      exc_bind_error, exc_pure_eq, exc_throw_eq]

end TVMDepthwise

namespace TVMDepthwise

/-- The height-tile (block-row) split axis of the hierarchy binder on
anchor stage `out`: the outer result of splitting output axis 2 by the
height tile. -/
def blockRowOf (out : StageRef) (H : Nat) : Axis :=
  .outerF (blocking_h H) (.base out 2)

/-- The width-tile (block-col) split axis: the outer result of splitting
output axis 3 by the width tile. -/
def blockColOf (out : StageRef) (W : Nat) : Axis :=
  .outerF (blocking_w W) (.base out 3)

/-- The virtual-thread split of the height direction (bound to `vx`). -/
def tvxAxisOf (out : StageRef) (H : Nat) : Axis :=
  .outerN num_vthread_x (.innerF (blocking_h H) (.base out 2))

/-- The virtual-thread split of the width direction (bound to `vy`). -/
def tvyAxisOf (out : StageRef) (W : Nat) : Axis :=
  .outerN (num_vthread_y W) (.innerF (blocking_w W) (.base out 3))

/-- The physical-thread split of the height direction (bound to
`threadIdx.x` by the source). -/
def txAxisOf (out : StageRef) (H : Nat) : Axis :=
  .outerN num_thread (.innerN num_vthread_x (.innerF (blocking_h H) (.base out 2)))

/-- The physical-thread split of the width direction (bound to
`threadIdx.y` by the source). -/
def tyAxisOf (out : StageRef) (W : Nat) : Axis :=
  .outerN num_thread
    (.innerN (num_vthread_y W) (.innerF (blocking_w W) (.base out 3)))

/-- The per-thread row remainder of the height split chain. -/
def rowRemOf (out : StageRef) (H : Nat) : Axis :=
  .innerN num_thread (.innerN num_vthread_x (.innerF (blocking_h H) (.base out 2)))

/-- The per-thread column remainder of the width split chain. -/
def colRemOf (out : StageRef) (W : Nat) : Axis :=
  .innerN num_thread
    (.innerN (num_vthread_y W) (.innerF (blocking_w W) (.base out 3)))

/-- Whether a stage is a cache-write stage of node `conv`. -/
def isCacheWriteOf (conv : Node) : StageRef → Bool
  | .cacheWrite n _ => n == conv
  | _ => false

/-- Modelled from the spec: "results accumulate directly into the final
output buffer (root-stage)" — no private register buffer is created for
the convolution's result, i.e. the schedule holds no cache-write stage of
the convolution node. -/
def accumulatesDirectlyIntoOutput (cws : List StageRef) (conv : Node) : Bool :=
  ! cws.any (isCacheWriteOf conv)

/-- A depthwise-convolution graph with no epilogue (the convolution is
the declared output). -/
def c4Graph : Node := convGraph 16 2 48 48 3 3

/-- C4 counterexample: when the convolution is itself the declared graph
root (no epilogue), its results do not accumulate directly into the final
output buffer: the source creates a local cache-write stage of the
convolution, so a private register accumulation buffer exists. -/
theorem claim_c4_counterexample :
    c4Graph ∈ (create_schedule c4Graph).outputs ∧
      StageRef.cacheWrite c4Graph "local" ∈
        cacheWritesOf (schedule_depthwise_conv2d_map c4Graph) ∧
      accumulatesDirectlyIntoOutput
        (cacheWritesOf (schedule_depthwise_conv2d_map c4Graph)) c4Graph
        = false := by
  refine ⟨by decide, by decide, by decide⟩

/-- C4 amended: when the convolution is the declared root (no epilogue),
the convolution stage stays root-stage (never inline, no scope change)
and is the hierarchy-binding anchor, but its results accumulate in a
local cache-write buffer anchored at the thread-y split, which then
stores into the final output buffer; with an epilogue, the convolution
stage itself is set to local scope, anchored at the root's thread-y
split, and no cache-write stage is created. -/
theorem claim_c4_amended (c m H W kh kw : Nat) :
    (cacheWritesOf (schedule_depthwise_conv2d_map (convGraph c m H W kh kw))
        = [.cacheWrite (convGraph c m H W kh kw) "local"] ∧
      (StageRef.cacheWrite (convGraph c m H W kh kw) "local",
        StageRef.node (convGraph c m H W kh kw),
        tyAxisOf (.node (convGraph c m H W kh kw)) W) ∈
        computeAtsOf (schedule_depthwise_conv2d_map (convGraph c m H W kh kw)) ∧
      StageRef.node (convGraph c m H W kh kw) ∉
        inlinedOf (schedule_depthwise_conv2d_map (convGraph c m H W kh kw)) ∧
      scopesOf (schedule_depthwise_conv2d_map (convGraph c m H W kh kw)) = [] ∧
      (StageRef.node (convGraph c m H W kh kw),
        Axis.fused (blockRowOf (.node (convGraph c m H W kh kw)) H)
          (blockColOf (.node (convGraph c m H W kh kw)) W),
        block_y) ∈
        bindsOf (schedule_depthwise_conv2d_map (convGraph c m H W kh kw))) ∧
    ((StageRef.node (convGraph c m H W kh kw), "local") ∈
        scopesOf (schedule_depthwise_conv2d_map (epiGraph c m H W kh kw)) ∧
      (StageRef.node (convGraph c m H W kh kw),
        StageRef.node (epiGraph c m H W kh kw),
        tyAxisOf (.node (epiGraph c m H W kh kw)) W) ∈
        computeAtsOf (schedule_depthwise_conv2d_map (epiGraph c m H W kh kw)) ∧
      cacheWritesOf (schedule_depthwise_conv2d_map (epiGraph c m H W kh kw))
        = []) := by
  refine ⟨⟨?_, ?_, ?_, ?_, ?_⟩, ⟨?_, ?_, ?_⟩⟩ <;>
    simp [schedule_depthwise_conv2d_map, traverse, traverseList, convGraph,
      epiGraph, padNode,
      leafNode, create_schedule, schedule_depthwise_conv2d, idxNat, idxNode,
      Node.shape, Node.inputs, schedule_core, Sched.compute_inline,
      Sched.cache_read, Sched.cache_write, Sched.set_scope, Sched.reorder,
      Sched.bind, Sched.compute_at, splitF, splitN, exc_bind_ok, exc_bind_error,
      exc_pure_eq, exc_throw_eq, cacheWritesOf, computeAtsOf, inlinedOf,
      scopesOf, bindsOf, tyAxisOf, blockRowOf, blockColOf]

end TVMDepthwise

namespace TVMDepthwise

/-- The original stage axis a split chain derives from, descending
through split results (`none` for a fused axis). -/
def rootBaseIdx : Axis → Option (StageRef × Nat)
  | .base st i => some (st, i)
  | .outerF _ a => rootBaseIdx a
  | .innerF _ a => rootBaseIdx a
  | .outerN _ a => rootBaseIdx a
  | .innerN _ a => rootBaseIdx a
  | .fused _ _ => none

/-- Modelled from the spec: "bind the two physical splits to thread-x
(width direction) and thread-y (height direction)" — some recorded
binding on stage `st` binds a split chain deriving from base axis `i` of
`st` to a thread axis with tag `ttagv` (axis 2 is the height direction,
axis 3 the width direction of a rank-4 output). -/
def boundOnBaseIdx (bs : List (StageRef × Axis × ThreadAxis)) (st : StageRef)
    (ttagv : String) (i : Nat) : Bool :=
  bs.any (fun b =>
    b.1 == st && b.2.2.ttag == ttagv && rootBaseIdx b.2.1 == some (st, i))

/-- A concrete depthwise-convolution graph for the binding-direction
counterexample. -/
def c6Graph : Node := convGraph 16 2 48 48 3 3

/-- C6 counterexample: on the anchor stage, `threadIdx.x` is not bound on
the width direction (axis 3) as the claim states; it is bound on the
height direction (axis 2), and symmetrically `threadIdx.y` on the width
direction. -/
theorem claim_c6_counterexample :
    boundOnBaseIdx (bindsOf (schedule_depthwise_conv2d_map c6Graph))
        (.node c6Graph) "threadIdx.x" 3 = false ∧
      boundOnBaseIdx (bindsOf (schedule_depthwise_conv2d_map c6Graph))
        (.node c6Graph) "threadIdx.x" 2 = true ∧
      boundOnBaseIdx (bindsOf (schedule_depthwise_conv2d_map c6Graph))
        (.node c6Graph) "threadIdx.y" 2 = false ∧
      boundOnBaseIdx (bindsOf (schedule_depthwise_conv2d_map c6Graph))
        (.node c6Graph) "threadIdx.y" 3 = true := by
  refine ⟨by decide, by decide, by decide, by decide⟩

/-- C6 amended: the two virtual-thread splits are bound to the
virtual-thread axes (`vx` on the height split, `vy` on the width split),
and the two physical-thread splits are bound with thread-x on the height
direction and thread-y on the width direction — the same assignment used
by the shared-stage fetches, which bind thread-x on their axis-2 split
and thread-y on their axis-3 split. -/
theorem claim_c6_amended (c m H W kh kw : Nat) :
    (StageRef.node (convGraph c m H W kh kw),
        tvxAxisOf (.node (convGraph c m H W kh kw)) H, thread_vx) ∈
      bindsOf (schedule_depthwise_conv2d_map (convGraph c m H W kh kw)) ∧
    (StageRef.node (convGraph c m H W kh kw),
        tvyAxisOf (.node (convGraph c m H W kh kw)) W, thread_vy W) ∈
      bindsOf (schedule_depthwise_conv2d_map (convGraph c m H W kh kw)) ∧
    (StageRef.node (convGraph c m H W kh kw),
        txAxisOf (.node (convGraph c m H W kh kw)) H, thread_x) ∈
      bindsOf (schedule_depthwise_conv2d_map (convGraph c m H W kh kw)) ∧
    (StageRef.node (convGraph c m H W kh kw),
        tyAxisOf (.node (convGraph c m H W kh kw)) W, thread_y) ∈
      bindsOf (schedule_depthwise_conv2d_map (convGraph c m H W kh kw)) ∧
    (StageRef.cacheRead
        (.node (padNode 2 [1, c, H + kh - 1, W + kw - 1] (leafNode 1 [1, c, H, W])))
        "shared",
      Axis.outerN num_thread
        (.base (StageRef.cacheRead
          (.node (padNode 2 [1, c, H + kh - 1, W + kw - 1]
            (leafNode 1 [1, c, H, W]))) "shared") 2),
      thread_x) ∈
      bindsOf (schedule_depthwise_conv2d_map (convGraph c m H W kh kw)) ∧
    (StageRef.cacheRead
        (.node (padNode 2 [1, c, H + kh - 1, W + kw - 1] (leafNode 1 [1, c, H, W])))
        "shared",
      Axis.outerN num_thread
        (.base (StageRef.cacheRead
          (.node (padNode 2 [1, c, H + kh - 1, W + kw - 1]
            (leafNode 1 [1, c, H, W]))) "shared") 3),
      thread_y) ∈
      bindsOf (schedule_depthwise_conv2d_map (convGraph c m H W kh kw)) ∧
    (StageRef.cacheRead (.node (leafNode 3 [c, m, kh, kw])) "shared",
      Axis.outerN num_thread
        (.base (StageRef.cacheRead (.node (leafNode 3 [c, m, kh, kw]))
          "shared") 2),
      thread_x) ∈
      bindsOf (schedule_depthwise_conv2d_map (convGraph c m H W kh kw)) ∧
    (StageRef.cacheRead (.node (leafNode 3 [c, m, kh, kw])) "shared",
      Axis.outerN num_thread
        (.base (StageRef.cacheRead (.node (leafNode 3 [c, m, kh, kw]))
          "shared") 3),
      thread_y) ∈
      bindsOf (schedule_depthwise_conv2d_map (convGraph c m H W kh kw)) := by
  refine ⟨?_, ?_, ?_, ?_, ?_, ?_, ?_, ?_⟩ <;>
    simp [schedule_depthwise_conv2d_map, traverse, traverseList, convGraph,
      padNode, leafNode, create_schedule, schedule_depthwise_conv2d, idxNat,
      idxNode, Node.shape, Node.inputs, schedule_core, Sched.compute_inline,
      Sched.cache_read, Sched.cache_write, Sched.set_scope, Sched.reorder,
      Sched.bind, Sched.compute_at, splitF, splitN, exc_bind_ok, exc_bind_error,
      exc_pure_eq, exc_throw_eq, bindsOf, tvxAxisOf, tvyAxisOf, txAxisOf,
      tyAxisOf]

end TVMDepthwise

namespace TVMDepthwise

/-- C7: after the hierarchy binder's splits, the reorder recorded on the
anchor stage is exactly block-row, block-col, vthread-h, vthread-w, the
thread-x-bound split, the thread-y-bound split, row remainder, column
remainder; block-row and block-col are then fused and bound to grid-y
(`blockIdx.y`) — for both the no-epilogue anchor (the convolution) and
the fused-epilogue anchor (the declared root). -/
theorem claim_c7_axis_order (c m H W kh kw : Nat) :
    ((StageRef.node (convGraph c m H W kh kw),
        [blockRowOf (.node (convGraph c m H W kh kw)) H,
         blockColOf (.node (convGraph c m H W kh kw)) W,
         tvxAxisOf (.node (convGraph c m H W kh kw)) H,
         tvyAxisOf (.node (convGraph c m H W kh kw)) W,
         txAxisOf (.node (convGraph c m H W kh kw)) H,
         tyAxisOf (.node (convGraph c m H W kh kw)) W,
         rowRemOf (.node (convGraph c m H W kh kw)) H,
         colRemOf (.node (convGraph c m H W kh kw)) W]) ∈
        reordersOf (schedule_depthwise_conv2d_map (convGraph c m H W kh kw)) ∧
      (StageRef.node (convGraph c m H W kh kw),
        Axis.fused (blockRowOf (.node (convGraph c m H W kh kw)) H)
          (blockColOf (.node (convGraph c m H W kh kw)) W),
        block_y) ∈
        bindsOf (schedule_depthwise_conv2d_map (convGraph c m H W kh kw))) ∧
    ((StageRef.node (epiGraph c m H W kh kw),
        [blockRowOf (.node (epiGraph c m H W kh kw)) H,
         blockColOf (.node (epiGraph c m H W kh kw)) W,
         tvxAxisOf (.node (epiGraph c m H W kh kw)) H,
         tvyAxisOf (.node (epiGraph c m H W kh kw)) W,
         txAxisOf (.node (epiGraph c m H W kh kw)) H,
         tyAxisOf (.node (epiGraph c m H W kh kw)) W,
         rowRemOf (.node (epiGraph c m H W kh kw)) H,
         colRemOf (.node (epiGraph c m H W kh kw)) W]) ∈
        reordersOf (schedule_depthwise_conv2d_map (epiGraph c m H W kh kw)) ∧
      (StageRef.node (epiGraph c m H W kh kw),
        Axis.fused (blockRowOf (.node (epiGraph c m H W kh kw)) H)
          (blockColOf (.node (epiGraph c m H W kh kw)) W),
        block_y) ∈
        bindsOf (schedule_depthwise_conv2d_map (epiGraph c m H W kh kw))) := by
  refine ⟨⟨?_, ?_⟩, ⟨?_, ?_⟩⟩ <;>
    simp [schedule_depthwise_conv2d_map, traverse, traverseList, convGraph,
      epiGraph, padNode, leafNode, create_schedule, schedule_depthwise_conv2d,
      idxNat, idxNode, Node.shape, Node.inputs, schedule_core,
      Sched.compute_inline, Sched.cache_read, Sched.cache_write,
      Sched.set_scope, Sched.reorder, Sched.bind, Sched.compute_at, splitF,
      splitN, exc_bind_ok, exc_bind_error, exc_pure_eq, exc_throw_eq,
      reordersOf, bindsOf, blockRowOf, blockColOf, tvxAxisOf, tvyAxisOf,
      txAxisOf, tyAxisOf, rowRemOf, colRemOf]

/-- C8: the padding producer is always marked inline (never materialized
as a buffer), and the padded input and the filter each get a
global-to-shared-to-local staging chain: the schedule's cache-read stages
are exactly the shared-stage reads of the padded input and the filter and
the local-stage reads of those two shared stages, each read by the
convolution — for both the no-epilogue and the fused-epilogue graph. -/
theorem claim_c8_staging (c m H W kh kw : Nat) :
    (StageRef.node (padNode 2 [1, c, H + kh - 1, W + kw - 1]
        (leafNode 1 [1, c, H, W])) ∈
      inlinedOf (schedule_depthwise_conv2d_map (convGraph c m H W kh kw)) ∧
      cacheReadsOf (schedule_depthwise_conv2d_map (convGraph c m H W kh kw)) =
        [(.cacheRead (.node (padNode 2 [1, c, H + kh - 1, W + kw - 1]
            (leafNode 1 [1, c, H, W]))) "shared",
          [.node (convGraph c m H W kh kw)]),
         (.cacheRead (.node (leafNode 3 [c, m, kh, kw])) "shared",
          [.node (convGraph c m H W kh kw)]),
         (.cacheRead (.cacheRead (.node (padNode 2 [1, c, H + kh - 1, W + kw - 1]
            (leafNode 1 [1, c, H, W]))) "shared") "local",
          [.node (convGraph c m H W kh kw)]),
         (.cacheRead (.cacheRead (.node (leafNode 3 [c, m, kh, kw])) "shared")
            "local",
          [.node (convGraph c m H W kh kw)])]) ∧
    (StageRef.node (padNode 2 [1, c, H + kh - 1, W + kw - 1]
        (leafNode 1 [1, c, H, W])) ∈
      inlinedOf (schedule_depthwise_conv2d_map (epiGraph c m H W kh kw)) ∧
      cacheReadsOf (schedule_depthwise_conv2d_map (epiGraph c m H W kh kw)) =
        [(.cacheRead (.node (padNode 2 [1, c, H + kh - 1, W + kw - 1]
            (leafNode 1 [1, c, H, W]))) "shared",
          [.node (convGraph c m H W kh kw)]),
         (.cacheRead (.node (leafNode 3 [c, m, kh, kw])) "shared",
          [.node (convGraph c m H W kh kw)]),
         (.cacheRead (.cacheRead (.node (padNode 2 [1, c, H + kh - 1, W + kw - 1]
            (leafNode 1 [1, c, H, W]))) "shared") "local",
          [.node (convGraph c m H W kh kw)]),
         (.cacheRead (.cacheRead (.node (leafNode 3 [c, m, kh, kw])) "shared")
            "local",
          [.node (convGraph c m H W kh kw)])]) := by
  refine ⟨⟨?_, ?_⟩, ⟨?_, ?_⟩⟩ <;>
    simp [schedule_depthwise_conv2d_map, traverse, traverseList, convGraph,
      epiGraph, padNode, leafNode, create_schedule, schedule_depthwise_conv2d,
      idxNat, idxNode, Node.shape, Node.inputs, schedule_core,
      Sched.compute_inline, Sched.cache_read, Sched.cache_write,
      Sched.set_scope, Sched.reorder, Sched.bind, Sched.compute_at, splitF,
      splitN, exc_bind_ok, exc_bind_error, exc_pure_eq, exc_throw_eq,
      inlinedOf, cacheReadsOf]

end TVMDepthwise

namespace TVMDepthwise

/-- A leading elementwise node feeding the convolution's padded input. -/
def c5Leading : Node := .mk 9 "ewise" [1, 8, 32, 32] [leafNode 1 [1, 8, 32, 32]]

/-- A conforming graph with a leading elementwise producer below the
convolution: conv(pad(ewise(input)), filter). -/
def c5Graph : Node :=
  .mk 4 "depthwise_conv2d" [1, 8, 32, 32]
    [padNode 2 [1, 8, 34, 34] c5Leading, leafNode 3 [8, 1, 3, 3]]

/-- C5 counterexample: an elementwise node of the graph that is not the
declared root is not marked inline when it sits below the convolution
(the traversal never reaches it): construction succeeds, yet the leading
elementwise node is absent from the inline set. -/
theorem claim_c5_counterexample :
    okOf (schedule_depthwise_conv2d_map c5Graph) = true ∧
      c5Leading ∈ allNodes c5Graph ∧
      c5Leading.tag = "ewise" ∧
      c5Leading ≠ c5Graph ∧
      StageRef.node c5Leading ∉
        inlinedOf (schedule_depthwise_conv2d_map c5Graph) := by
  refine ⟨by decide, by decide, by decide, by decide, by decide⟩

/-- C5 amended: every elementwise or scale-shift node the traversal
visits as a non-output is marked inline in the final schedule; the
declared root is never inlined (its node identity being distinct from
every other node's); and traversal recurses only from elementwise /
scale-shift nodes into their non-leaf producers. -/
theorem claim_c5_amended (g : Node) (hnd : (nodeIds g).Nodup)
    (hok : okOf (schedule_depthwise_conv2d_map g) = true) :
    (∀ n b, (n, b) ∈ visitedPairs g true →
      (n.tag = "ewise" ∨ n.tag = "scale_shift") → b = false →
      StageRef.node n ∈ inlinedOf (schedule_depthwise_conv2d_map g)) ∧
    StageRef.node g ∉ inlinedOf (schedule_depthwise_conv2d_map g) ∧
    (∀ p c, (p, c) ∈ recursionEdges g →
      (p.tag = "ewise" ∨ p.tag = "scale_shift") ∧ c ∈ p.inputs ∧
        c.inputs ≠ []) := by
  cases hmap : schedule_depthwise_conv2d_map g with
  | error e => rw [hmap] at hok; simp [okOf] at hok
  | ok s' =>
    have hmap' : traverse (create_schedule g) g g true = .ok s' := hmap
    have hrel := traverse_ok (create_schedule g) g g true s' hmap'
    have hinl : s'.inlined = inlineMarks g true := by
      rw [hrel.1]
      simp [create_schedule]
    refine ⟨?_, ?_, ?_⟩
    · intro n b hv hew hb
      subst hb
      show StageRef.node n ∈ s'.inlined
      rw [hinl]
      exact visited_inlined g true n hv hew
    · show StageRef.node g ∉ s'.inlined
      rw [hinl]
      exact root_not_inlineMarks g hnd
    · intro p c hpc
      exact recursionEdges_spec g p c hpc

/-- A graph with an elementwise root, a scale-shift epilogue node, and
the convolution below them, used as the C5 witness input. -/
def c5WitnessGraph : Node :=
  .mk 9 "ewise" [1, 8, 48, 48]
    [.mk 8 "scale_shift" [1, 8, 48, 48] [convGraph 8 1 48 48 3 3]]

/-- C5 amended, witness at a concrete epilogue-chain graph. -/
theorem claim_c5_amended_witness :
    (nodeIds c5WitnessGraph).Nodup ∧
      okOf (schedule_depthwise_conv2d_map c5WitnessGraph) = true ∧
      ((∀ n b, (n, b) ∈ visitedPairs c5WitnessGraph true →
        (n.tag = "ewise" ∨ n.tag = "scale_shift") → b = false →
        StageRef.node n ∈
          inlinedOf (schedule_depthwise_conv2d_map c5WitnessGraph)) ∧
      StageRef.node c5WitnessGraph ∉
        inlinedOf (schedule_depthwise_conv2d_map c5WitnessGraph) ∧
      (∀ p c, (p, c) ∈ recursionEdges c5WitnessGraph →
        (p.tag = "ewise" ∨ p.tag = "scale_shift") ∧ c ∈ p.inputs ∧
          c.inputs ≠ [])) :=
  ⟨by decide, by decide,
    claim_c5_amended c5WitnessGraph (by decide) (by decide)⟩

/-- C9: the transform is deterministic over graph structure — erasing
node identities from the input graph determines the identity-erased
schedule, so two structurally identical but distinct graph instances
yield structurally identical schedules (same tile sizes, same binding
tree). -/
theorem claim_c9_determinism (g1 g2 : Node)
    (h : stripNode g1 = stripNode g2) :
    stripExc (schedule_depthwise_conv2d_map g1)
      = stripExc (schedule_depthwise_conv2d_map g2) := by
  rw [strip_map, strip_map, h]

/-- A structural copy of `convGraph 8 1 48 48 3 3` with entirely
different node identities. -/
def c9GraphB : Node :=
  .mk 40 "depthwise_conv2d" [1, 8, 48, 48]
    [.mk 20 "pad" [1, 8, 50, 50] [.mk 10 "" [1, 8, 48, 48] []],
     .mk 30 "" [8, 1, 3, 3] []]

/-- C9 witness: two structurally identical graphs with disjoint node
identities produce identical identity-erased schedules. -/
theorem claim_c9_determinism_witness :
    stripNode (convGraph 8 1 48 48 3 3) = stripNode c9GraphB ∧
      convGraph 8 1 48 48 3 3 ≠ c9GraphB ∧
      stripExc (schedule_depthwise_conv2d_map (convGraph 8 1 48 48 3 3))
        = stripExc (schedule_depthwise_conv2d_map c9GraphB) :=
  ⟨by decide, by decide,
    claim_c9_determinism (convGraph 8 1 48 48 3 3) c9GraphB (by decide)⟩

/-- C10: the traversal recurses only into producers that have input
tensors (each recursion edge targets a producer with nonempty inputs),
every node visited as a non-output has inputs (so leaves are never
recursively visited), no node tagged depthwise-convolution contributes
recursion edges (its producers are never traversed further), and every
inline mark the traversal's elementwise branch records lands in the final
schedule and names a non-leaf node. -/
theorem claim_c10_leaf_and_conv (g : Node)
    (hok : okOf (schedule_depthwise_conv2d_map g) = true) :
    (∀ p c, (p, c) ∈ recursionEdges g → c ∈ p.inputs ∧ c.inputs ≠ []) ∧
    (∀ n b, (n, b) ∈ visitedPairs g true → b = false → n.inputs ≠ []) ∧
    (∀ cv : Node, cv.tag = "depthwise_conv2d" → recursionEdges cv = []) ∧
    (∀ r ∈ ewiseMarks g true,
      r ∈ inlinedOf (schedule_depthwise_conv2d_map g) ∧
      ∃ n, r = .node n ∧ n.inputs ≠ []) := by
  refine ⟨?_, ?_, ?_, ?_⟩
  · intro p c hpc
    exact (recursionEdges_spec g p c hpc).2
  · intro n b hv hb
    subst hb
    exact visited_nonroot_nonleaf g true (fun h => absurd h (by decide)) n hv
  · intro cv hcv
    refine recursionEdges_stops cv ?_
    rw [hcv]
    decide
  · intro r hr
    cases hmap : schedule_depthwise_conv2d_map g with
    | error e => rw [hmap] at hok; simp [okOf] at hok
    | ok s' =>
      have hmap' : traverse (create_schedule g) g g true = .ok s' := hmap
      have hrel := traverse_ok (create_schedule g) g g true s' hmap'
      constructor
      · show r ∈ s'.inlined
        rw [hrel.1]
        simp only [create_schedule, List.nil_append]
        exact ewiseMarks_sub g true r hr
      · obtain ⟨n, hn, hnl, _⟩ :=
          ewiseMarks_nonleaf g true (fun h => absurd h (by decide)) r hr
        exact ⟨n, hn, hnl⟩

/-- A graph with an elementwise epilogue over the convolution, used as
the C10 witness input. -/
def c10WitnessGraph : Node := epiGraph 4 2 64 64 3 3

/-- C10 witness at a concrete epilogue graph. -/
theorem claim_c10_leaf_and_conv_witness :
    okOf (schedule_depthwise_conv2d_map c10WitnessGraph) = true ∧
      ((∀ p c, (p, c) ∈ recursionEdges c10WitnessGraph →
          c ∈ p.inputs ∧ c.inputs ≠ []) ∧
      (∀ n b, (n, b) ∈ visitedPairs c10WitnessGraph true → b = false →
        n.inputs ≠ []) ∧
      (∀ cv : Node, cv.tag = "depthwise_conv2d" → recursionEdges cv = []) ∧
      (∀ r ∈ ewiseMarks c10WitnessGraph true,
        r ∈ inlinedOf (schedule_depthwise_conv2d_map c10WitnessGraph) ∧
        ∃ n, r = .node n ∧ n.inputs ≠ [])) :=
  ⟨by decide, claim_c10_leaf_and_conv c10WitnessGraph (by decide)⟩

end TVMDepthwise
